import Mathlib

/-!
Verification of the readme-flat bidirectional synchronization core.

The development shallowly embeds the Python modules
`readme_sync/core/sync_engine.py` and `readme_sync/services/database.py`:

* the filesystem is a finite association list from absolute path strings to
  file records (mtime, readable bytes, size); a path absent from the list
  does not exist, a present record with `bytes = none` exists but cannot be
  opened (permission error);
* mtimes, sizes and wall-clock times are exact integers (the Python floats
  enter the decision logic only through comparisons and subtractions);
* the md5 hex digest is an abstract parameter `digest : String -> String`
  applied to the file bytes, matching `DatabaseManager.get_file_hash`;
* database rows are `FileMapping` records; the hash and time columns are
  modelled non-null because `add_file_mapping` always writes them (an empty
  hash string stands for a file that was unreadable or absent at record
  time, and Python truthiness treats it like a missing baseline);
* paths are kept as plain strings and compared exactly as the Python code
  compares them (`os.path.normpath` is the identity on the already
  normalized absolute paths the engine produces).
-/

namespace ReadmeSync

/-- One filesystem entry: modification time, readable content (none when the
file exists but `open` raises), and byte size. -/
structure FileData where
  mtime : Int
  bytes : Option String
  size : Int
deriving DecidableEq

/-- The filesystem: a finite association list from paths to entries. -/
structure FS where
  files : List (String × FileData)
deriving DecidableEq

/-- Path lookup; first match wins. -/
def lookupFile (fs : FS) (p : String) : Option FileData :=
  (fs.files.find? (fun e => decide (e.1 = p))).map (·.2)

/-- `os.path.exists`. -/
def os_exists (fs : FS) (p : String) : Bool :=
  (lookupFile fs p).isSome

/-- `os.path.getmtime`; only called by the engine after an existence check,
so the default for a missing path is never load bearing. -/
def os_getmtime (fs : FS) (p : String) : Int :=
  match lookupFile fs p with
  | some d => d.mtime
  | none => 0

/-- `open(p, 'rb').read()` as an optional value: `none` when the path is
missing or unreadable. -/
def readBytes (fs : FS) (p : String) : Option String :=
  (lookupFile fs p).bind (·.bytes)

/-- `DatabaseManager.get_file_hash`: digest of the bytes on success, the
empty string when opening or reading raises (database.py lines 59-65). -/
def get_file_hash (digest : String → String) (fs : FS) (p : String) : String :=
  match readBytes fs p with
  | some b => digest b
  | none => ""

/-- One row of the `file_mappings` table. -/
structure FileMapping where
  source_path : String
  target_path : String
  project_name : String
  renamed_filename : String
  source_hash : String
  target_hash : String
  source_mtime : Int
  target_mtime : Int
  last_sync_time : Int
deriving DecidableEq

/-- The verdicts of the decision engine
(`_determine_sync_action` return values). -/
inductive SyncAction where
  | no_sync
  | source_to_target
  | target_to_source
  | conflict
deriving DecidableEq

/-- `(baseline != live) if baseline else True`: the changed-since-baseline
test of sync_engine.py lines 273-274, where a missing mapping or an empty
stored hash is falsy and therefore counts as changed. -/
def changed_since_baseline (baseline : Option String) (live : String) : Bool :=
  match baseline with
  | some h => if h ≠ "" then decide (h ≠ live) else true
  | none => true

/-- `SyncEngine._handle_dual_modification` (sync_engine.py lines 303-333). -/
def handle_dual_modification (tolerance source_mtime target_mtime last_sync_time : Int) :
    SyncAction :=
  let source_time_since_sync := source_mtime - last_sync_time
  let target_time_since_sync := target_mtime - last_sync_time
  if target_time_since_sync > source_time_since_sync ∧
      target_mtime - source_mtime > tolerance then
    .no_sync
  else if source_time_since_sync > target_time_since_sync ∧
      source_mtime - target_mtime > tolerance then
    .source_to_target
  else
    let time_diff := |source_mtime - target_mtime|
    if time_diff ≤ tolerance then .no_sync
    else if target_mtime > source_mtime then .no_sync
    else .conflict

/-- `SyncEngine._determine_sync_action` (sync_engine.py lines 243-301).
The call to `db.update_sync_time` in the equal-hash branch only refreshes
the stored baseline and does not influence the returned verdict, so the
embedding is the pure decision function. -/
def determine_sync_action (digest : String → String) (fs : FS) (tolerance : Int)
    (source_path target_path : String) (mapping : Option FileMapping) : SyncAction :=
  if os_exists fs source_path = false then .no_sync
  else if os_exists fs target_path = false then .source_to_target
  else
    let source_mtime := os_getmtime fs source_path
    let target_mtime := os_getmtime fs target_path
    let source_hash := get_file_hash digest fs source_path
    let target_hash := get_file_hash digest fs target_path
    if source_hash = target_hash then .no_sync
    else
      let last_sync_time : Int :=
        match mapping with
        | some m => m.last_sync_time
        | none => 0
      let source_changed := changed_since_baseline (mapping.map (·.source_hash)) source_hash
      let target_changed := changed_since_baseline (mapping.map (·.target_hash)) target_hash
      if source_changed = false ∧ target_changed = true then .target_to_source
      else if source_changed = true ∧ target_changed = false then .source_to_target
      else if source_changed = true ∧ target_changed = true then
        handle_dual_modification tolerance source_mtime target_mtime last_sync_time
      else
        let time_diff := |source_mtime - target_mtime|
        if time_diff ≤ tolerance then .no_sync
        else if target_mtime > source_mtime then .no_sync
        else .source_to_target

end ReadmeSync
namespace ReadmeSync

theorem handle_dual_modification_within_tolerance (tolerance s t l : Int)
    (h : |s - t| ≤ tolerance) :
    handle_dual_modification tolerance s t l = .no_sync := by
  have h' := abs_le.mp h
  simp only [handle_dual_modification]
  have hA : ¬(t - l > s - l ∧ t - s > tolerance) := by omega
  have hB : ¬(s - l > t - l ∧ s - t > tolerance) := by omega
  rw [if_neg hA, if_neg hB, if_pos h]

/-- The conflict branch of _handle_dual_modification is dead code for any
nonnegative tolerance: the elapsed-time comparison (mtime minus
last_sync_time on both sides) and the absolute mtime comparison subtract
the same baseline, so whenever the fallback would find the source newer by
more than the tolerance, the source-elapsed branch has already fired. -/
theorem handle_dual_modification_conflict_unreachable (tolerance s t l : Int)
    (htol : 0 ≤ tolerance) :
    handle_dual_modification tolerance s t l ≠ .conflict := by
  simp only [handle_dual_modification]
  split_ifs with h1 h2 h3 h4
  · decide
  · decide
  · decide
  · decide
  · exfalso
    rcases abs_cases (s - t) with ⟨he, hn⟩ | ⟨he, hn⟩ <;> rw [he] at h3 <;> omega

/-- Claim C1: when both files exist, the live hashes differ, and exactly one
side's live hash differs from its stored baseline (a missing or empty
baseline counting as changed), the decision engine propagates from the
changed side: source_to_target when only the source changed,
target_to_source when only the target changed. -/
theorem determine_sync_action_single_side (digest : String → String) (fs : FS)
    (tolerance : Int) (source_path target_path : String) (mapping : Option FileMapping)
    (hs : os_exists fs source_path = true) (ht : os_exists fs target_path = true)
    (hneq : get_file_hash digest fs source_path ≠ get_file_hash digest fs target_path) :
    (changed_since_baseline (mapping.map (·.source_hash))
        (get_file_hash digest fs source_path) = true →
      changed_since_baseline (mapping.map (·.target_hash))
        (get_file_hash digest fs target_path) = false →
      determine_sync_action digest fs tolerance source_path target_path mapping
        = .source_to_target) ∧
    (changed_since_baseline (mapping.map (·.source_hash))
        (get_file_hash digest fs source_path) = false →
      changed_since_baseline (mapping.map (·.target_hash))
        (get_file_hash digest fs target_path) = true →
      determine_sync_action digest fs tolerance source_path target_path mapping
        = .target_to_source) := by
  constructor <;> intro h1 h2 <;>
    simp only [determine_sync_action, hs, ht, h1, h2, hneq] <;>
    simp

end ReadmeSync
namespace ReadmeSync

/-- Claim C3: for a dual modification (both live hashes differ from their
stored baselines and from each other) whose mtime difference is within the
tolerance window, the verdict is no_sync and in particular not conflict,
so the target file is left untouched and the run reports no_sync. -/
theorem determine_sync_action_dual_protected (digest : String → String) (fs : FS)
    (tolerance : Int) (source_path target_path : String) (mapping : Option FileMapping)
    (hs : os_exists fs source_path = true) (ht : os_exists fs target_path = true)
    (hneq : get_file_hash digest fs source_path ≠ get_file_hash digest fs target_path)
    (hsc : changed_since_baseline (mapping.map (·.source_hash))
      (get_file_hash digest fs source_path) = true)
    (htc : changed_since_baseline (mapping.map (·.target_hash))
      (get_file_hash digest fs target_path) = true)
    (htol : |os_getmtime fs source_path - os_getmtime fs target_path| ≤ tolerance) :
    determine_sync_action digest fs tolerance source_path target_path mapping
      = .no_sync ∧
    determine_sync_action digest fs tolerance source_path target_path mapping
      ≠ .conflict := by
  have he : determine_sync_action digest fs tolerance source_path target_path mapping
      = .no_sync := by
    simp only [determine_sync_action, hs, ht, hneq, hsc, htc]
    simp
    exact handle_dual_modification_within_tolerance _ _ _ _ htol
  exact ⟨he, by rw [he]; decide⟩

/-- Claim C10: get_file_hash is total: it returns the digest of the bytes
when the file can be read and the empty string otherwise, so any two
missing or unreadable files compare hash-equal, and for two existing but
unreadable files the engine takes the hash-equality branch (no_sync). -/
theorem get_file_hash_total_spec (digest : String → String) (fs : FS)
    (tolerance : Int) (mapping : Option FileMapping) :
    (∀ p b, readBytes fs p = some b → get_file_hash digest fs p = digest b) ∧
    (∀ p, readBytes fs p = none → get_file_hash digest fs p = "") ∧
    (∀ p q, readBytes fs p = none → readBytes fs q = none →
      get_file_hash digest fs p = get_file_hash digest fs q) ∧
    (∀ source_path target_path, os_exists fs source_path = true →
      os_exists fs target_path = true →
      readBytes fs source_path = none → readBytes fs target_path = none →
      determine_sync_action digest fs tolerance source_path target_path mapping
        = .no_sync) := by
  refine ⟨?_, ?_, ?_, ?_⟩
  · intro p b hb; simp [get_file_hash, hb]
  · intro p hp; simp [get_file_hash, hp]
  · intro p q hp hq; simp [get_file_hash, hp, hq]
  · intro sp tp hes het hp hq
    simp [determine_sync_action, hes, het, get_file_hash, hp, hq]

def sampleDigest : String → String := fun s => s

def fsSingle : FS :=
  ⟨[("/s/p/README.md", ⟨10, some "new", 3⟩), ("/t/p-README.md", ⟨20, some "old", 3⟩)]⟩

def mapBase : FileMapping :=
  ⟨"/s/p/README.md", "/t/p-README.md", "p", "p-README.md", "old", "old", 5, 5, 5⟩

theorem determine_sync_action_single_side_witness :
    os_exists fsSingle "/s/p/README.md" = true ∧
    os_exists fsSingle "/t/p-README.md" = true ∧
    get_file_hash sampleDigest fsSingle "/s/p/README.md"
      ≠ get_file_hash sampleDigest fsSingle "/t/p-README.md" ∧
    changed_since_baseline ((some mapBase).map (·.source_hash))
      (get_file_hash sampleDigest fsSingle "/s/p/README.md") = true ∧
    changed_since_baseline ((some mapBase).map (·.target_hash))
      (get_file_hash sampleDigest fsSingle "/t/p-README.md") = false ∧
    determine_sync_action sampleDigest fsSingle 5 "/s/p/README.md" "/t/p-README.md"
      (some mapBase) = .source_to_target :=
  ⟨by decide, by decide, by decide, by decide, by decide,
    (determine_sync_action_single_side sampleDigest fsSingle 5 "/s/p/README.md"
      "/t/p-README.md" (some mapBase) (by decide) (by decide) (by decide)).1
      (by decide) (by decide)⟩

def fsDual : FS :=
  ⟨[("/s/p/README.md", ⟨10, some "new1", 4⟩), ("/t/p-README.md", ⟨12, some "new2", 4⟩)]⟩

theorem determine_sync_action_dual_protected_witness :
    os_exists fsDual "/s/p/README.md" = true ∧
    os_exists fsDual "/t/p-README.md" = true ∧
    get_file_hash sampleDigest fsDual "/s/p/README.md"
      ≠ get_file_hash sampleDigest fsDual "/t/p-README.md" ∧
    changed_since_baseline ((some mapBase).map (·.source_hash))
      (get_file_hash sampleDigest fsDual "/s/p/README.md") = true ∧
    changed_since_baseline ((some mapBase).map (·.target_hash))
      (get_file_hash sampleDigest fsDual "/t/p-README.md") = true ∧
    |os_getmtime fsDual "/s/p/README.md" - os_getmtime fsDual "/t/p-README.md"| ≤ 5 ∧
    (determine_sync_action sampleDigest fsDual 5 "/s/p/README.md" "/t/p-README.md"
        (some mapBase) = .no_sync ∧
      determine_sync_action sampleDigest fsDual 5 "/s/p/README.md" "/t/p-README.md"
        (some mapBase) ≠ .conflict) :=
  ⟨by decide, by decide, by decide, by decide, by decide, by decide,
    determine_sync_action_dual_protected sampleDigest fsDual 5 "/s/p/README.md"
      "/t/p-README.md" (some mapBase) (by decide) (by decide) (by decide) (by decide)
      (by decide) (by decide)⟩

def fsUnreadable : FS :=
  ⟨[("/s/u/README.md", ⟨10, none, 4⟩), ("/t/u-README.md", ⟨20, none, 4⟩)]⟩

theorem get_file_hash_total_spec_witness :
    os_exists fsUnreadable "/s/u/README.md" = true ∧
    os_exists fsUnreadable "/t/u-README.md" = true ∧
    readBytes fsUnreadable "/s/u/README.md" = none ∧
    readBytes fsUnreadable "/t/u-README.md" = none ∧
    determine_sync_action sampleDigest fsUnreadable 5 "/s/u/README.md" "/t/u-README.md"
      none = .no_sync :=
  ⟨by decide, by decide, by decide, by decide,
    (get_file_hash_total_spec sampleDigest fsUnreadable 5 none).2.2.2 "/s/u/README.md"
      "/t/u-README.md" (by decide) (by decide) (by decide) (by decide)⟩

end ReadmeSync
namespace ReadmeSync

/-- Split a character list at every '/'. -/
def splitCharAux : List Char → List Char → List (List Char)
  | [], acc => [acc.reverse]
  | c :: cs, acc =>
    if c = '/' then acc.reverse :: splitCharAux cs [] else splitCharAux cs (c :: acc)

/-- `s.split('/')`. -/
def splitSlash (s : String) : List String := (splitCharAux s.data []).map String.mk

/-- `s.startswith(pre)` (plain string prefix, exactly as Python compares). -/
def strStartsWith (s pre : String) : Bool := List.isPrefixOf pre.data s.data

/-- `s.endswith(suf)`. -/
def strEndsWith (s suf : String) : Bool := List.isSuffixOf suf.data s.data

/-- `os.path.basename` on the normalized paths the engine handles. -/
def basename (p : String) : String := (splitSlash p).getLastD p

/-- `os.path.join` for an absolute directory and a relative name. -/
def joinPath (dir file : String) : String := dir ++ "/" ++ file

/-- Split a character list before its last '.', when there is one. -/
def lastDotSplit : List Char → Option (List Char × List Char)
  | [] => none
  | c :: cs =>
    match lastDotSplit cs with
    | some (pre, post) => some (c :: pre, post)
    | none => if c = '.' then some ([], cs) else none

/-- `os.path.splitext` on an ordinary file name (names consisting only of a
leading dot differ from Python, which treats them as extensionless; the
engine never produces such names). -/
def splitext (s : String) : String × String :=
  match lastDotSplit s.data with
  | some (pre, post) => (String.mk pre, String.mk ('.' :: post))
  | none => (s, "")

/-- Outcome of `SyncEngine._handle_conflict` (sync_engine.py lines 335-380):
either the pair is left alone, surfaced as an unresolved manual conflict, or
handed to `_perform_sync` with the chosen action. -/
inductive ConflictOutcome where
  | no_sync
  | manual_conflict
  | performSync (action : SyncAction)
deriving DecidableEq

/-- `SyncEngine._handle_conflict`. Any resolution string other than the
three recognized policies falls through to the manual branch, as in the
Python `else`. -/
def handle_conflict (fs : FS) (resolution : String) (source_path target_path : String)
    (mapping : Option FileMapping) : ConflictOutcome :=
  let source_mtime := os_getmtime fs source_path
  let target_mtime := os_getmtime fs target_path
  let recent_guard : Bool :=
    match mapping with
    | some m =>
      let target_modification_gap := target_mtime - m.last_sync_time
      decide (0 < target_modification_gap ∧ target_modification_gap < 3600)
    | none => false
  if recent_guard = true then .no_sync
  else if resolution = "latest" then
    if target_mtime > source_mtime then .no_sync
    else .performSync .source_to_target
  else if resolution = "source_priority" then .performSync .source_to_target
  else if resolution = "target_priority" then .no_sync
  else .manual_conflict

def fsConflict : FS :=
  ⟨[("/s/p/README.md", ⟨100, some "sv", 2⟩), ("/t/p-README.md", ⟨100, some "tv", 2⟩)]⟩

/-- A mapping whose target was rewritten 50 seconds after the last sync. -/
def mapRecent : FileMapping :=
  ⟨"/s/p/README.md", "/t/p-README.md", "p", "p-README.md", "h0", "h0", 50, 50, 50⟩

/-- Claim C2, counterexample: a conflicting pair (both files exist, hashes
differ, verdict escalated to conflict) on which the source_priority policy
returns no_sync: the recent-modification guard fires because the target was
rewritten 50 seconds after the last sync, overriding the policy. (The
conflict verdict itself is only reachable with a negative tolerance; the
guard behaviour of _handle_conflict is independent of that.) -/
theorem handle_conflict_source_priority_counterexample :
    os_exists fsConflict "/s/p/README.md" = true ∧
    os_exists fsConflict "/t/p-README.md" = true ∧
    get_file_hash sampleDigest fsConflict "/s/p/README.md"
      ≠ get_file_hash sampleDigest fsConflict "/t/p-README.md" ∧
    determine_sync_action sampleDigest fsConflict (-1) "/s/p/README.md" "/t/p-README.md"
      (some mapRecent) = .conflict ∧
    handle_conflict fsConflict "source_priority" "/s/p/README.md" "/t/p-README.md"
      (some mapRecent) = .no_sync := by
  refine ⟨by decide, by decide, by decide, by decide, by decide⟩

/-- Claim C2, amended: under source_priority, _handle_conflict resolves to
the source-to-target action whenever the recent-target-modification guard
does not fire, i.e. unless the mapping records a last_sync_time with
0 < target_mtime - last_sync_time < 3600; in that case it returns no_sync
regardless of the policy. -/
theorem handle_conflict_source_priority_resolves (fs : FS)
    (source_path target_path : String) (mapping : Option FileMapping)
    (hguard : ∀ m, mapping = some m →
      ¬(0 < os_getmtime fs target_path - m.last_sync_time ∧
        os_getmtime fs target_path - m.last_sync_time < 3600)) :
    handle_conflict fs "source_priority" source_path target_path mapping
      = .performSync .source_to_target := by
  rcases mapping with _ | m
  · simp [handle_conflict]
  · have hg := hguard m rfl
    simp only [handle_conflict]
    simp
    omega

/-- A mapping whose target has not been touched since the last sync
(modification gap zero). -/
def mapStale : FileMapping :=
  ⟨"/s/p/README.md", "/t/p-README.md", "p", "p-README.md", "h0", "h0", 100, 100, 100⟩

theorem handle_conflict_source_priority_resolves_witness :
    handle_conflict fsConflict "source_priority" "/s/p/README.md" "/t/p-README.md"
      (some mapStale) = .performSync .source_to_target :=
  handle_conflict_source_priority_resolves fsConflict "/s/p/README.md" "/t/p-README.md"
    (some mapStale) (by intro m hm; cases hm; decide)

end ReadmeSync
namespace ReadmeSync

/-- Default cooldown window: `self._sync_cooldown = 3.0` seconds. -/
def sync_cooldown : Int := 3

/-- The in-memory concurrency guard: the active lock set `_sync_locks` and
the cooldown map `_recent_syncs` (sync_engine.py lines 25-30). -/
structure GuardState where
  locks : List String
  recent : String → Option Int

/-- `SyncEngine._can_sync` (sync_engine.py lines 32-48). -/
def can_sync (g : GuardState) (now : Int) (file_path : String) : Bool :=
  if file_path ∈ g.locks then false
  else
    match g.recent file_path with
    | some t => if now - t < sync_cooldown then false else true
    | none => true

/-- `SyncEngine._acquire_sync_lock` (sync_engine.py lines 50-56). -/
def acquire_sync_lock (g : GuardState) (file_path : String) : Bool × GuardState :=
  if file_path ∈ g.locks then (false, g)
  else (true, ⟨file_path :: g.locks, g.recent⟩)

/-- `SyncEngine._release_sync_lock` (sync_engine.py lines 58-62): discard
from the lock set and stamp the cooldown map with the release time. -/
def release_sync_lock (g : GuardState) (now : Int) (file_path : String) : GuardState :=
  ⟨g.locks.filter (fun q => decide (q ≠ file_path)),
   fun q => if q = file_path then some now else g.recent q⟩

/-- The guard gate at the top of `SyncEngine.sync_single_file`
(sync_engine.py lines 152-158): the early return, when there is one. -/
def sync_single_file_gate (g : GuardState) (now : Int) (source_path : String) :
    Option String :=
  if can_sync g now source_path = false then some "skipped"
  else if (acquire_sync_lock g source_path).1 = false then some "locked"
  else none

/-- Claim C9: a reconciliation is never started while the path is in the
active lock set or within the 3-second cooldown window after its previous
reconciliation was released: _can_sync returns false in both cases and the
sync_single_file gate returns 'skipped' before any copy; releasing the lock
removes the path from the lock set and stamps its cooldown timestamp, and a
release followed within the window by a new attempt is again rejected. -/
theorem sync_guard_spec (g : GuardState) (now : Int) (file_path : String) :
    (file_path ∈ g.locks →
      can_sync g now file_path = false ∧
      sync_single_file_gate g now file_path = some "skipped") ∧
    (∀ t, g.recent file_path = some t → now - t < sync_cooldown →
      can_sync g now file_path = false ∧
      sync_single_file_gate g now file_path = some "skipped") ∧
    (∀ trel, file_path ∉ (release_sync_lock g trel file_path).locks ∧
      (release_sync_lock g trel file_path).recent file_path = some trel) ∧
    (∀ trel now2, now2 - trel < sync_cooldown →
      can_sync (release_sync_lock g trel file_path) now2 file_path = false) := by
  refine ⟨?_, ?_, ?_, ?_⟩
  · intro h
    have hc : can_sync g now file_path = false := by simp [can_sync, h]
    exact ⟨hc, by simp [sync_single_file_gate, hc]⟩
  · intro t ht hlt
    have hc : can_sync g now file_path = false := by
      by_cases hm : file_path ∈ g.locks <;> simp [can_sync, hm, ht, hlt]
    exact ⟨hc, by simp [sync_single_file_gate, hc]⟩
  · intro trel
    constructor
    · simp [release_sync_lock, List.mem_filter]
    · simp [release_sync_lock]
  · intro trel now2 hlt
    have hmem : file_path ∉ (release_sync_lock g trel file_path).locks := by
      simp [release_sync_lock, List.mem_filter]
    simp [can_sync, hmem, release_sync_lock, hlt]

def guard0 : GuardState := ⟨["/s/a/README.md"], fun _ => none⟩

theorem sync_guard_spec_witness :
    "/s/a/README.md" ∈ guard0.locks ∧
    can_sync guard0 10 "/s/a/README.md" = false ∧
    sync_single_file_gate guard0 10 "/s/a/README.md" = some "skipped" ∧
    (10 : Int) - 8 < sync_cooldown ∧
    can_sync (release_sync_lock guard0 8 "/s/a/README.md") 10 "/s/a/README.md" = false :=
  ⟨by decide,
    ((sync_guard_spec guard0 10 "/s/a/README.md").1 (by decide)).1,
    ((sync_guard_spec guard0 10 "/s/a/README.md").1 (by decide)).2,
    by decide,
    (sync_guard_spec guard0 10 "/s/a/README.md").2.2.2 8 10 (by decide)⟩

end ReadmeSync
namespace ReadmeSync

/-- `os.path.getsize` guarded exactly as sync_engine.py lines 197-200:
-1 when the file is missing or the call raises. -/
def os_getsize (fs : FS) (p : String) : Int :=
  match lookupFile fs p with
  | some d => d.size
  | none => -1

/-- The target path `sync_single_file` settles on before the move handling
block (sync_engine.py lines 164-174): the file found by the recursive
search when there is one, otherwise the flat default in the target folder
root. -/
def resolved_target_path (target_folder target_filename : String)
    (existing_target_file : Option String) : String :=
  match existing_target_file with
  | some p => p
  | none => joinPath target_folder (basename target_filename)

/-- The filesystem and database effect of the move-handling block. -/
inductive MoveEffect where
  | noop
  | updatePointer (oldTarget newTarget : String)
  | copyNewAndPointer (src dst oldTarget : String)
  | moveFile (oldTarget newTarget : String)
deriving DecidableEq

/-- Effect of the block together with the target path the rest of
`sync_single_file` continues with. -/
structure MoveResult where
  effect : MoveEffect
  target_path : String
deriving DecidableEq

/-- The move/rename handling block of `SyncEngine.sync_single_file`
(sync_engine.py lines 176-224). `updatePointer` stands for the pure
database call `db.update_target_path` (database.py lines 149-162), which
runs a single SQL UPDATE and touches no file bytes; `copyNewAndPointer`
and `moveFile` are the two byte-touching branches. -/
def handle_target_move (fs : FS) (target_folder source_path target_filename : String)
    (existing_target_file : Option String) (mapping : Option FileMapping) : MoveResult :=
  let target_path := resolved_target_path target_folder target_filename existing_target_file
  match mapping with
  | none => ⟨.noop, target_path⟩
  | some m =>
    if m.target_path = target_path then ⟨.noop, target_path⟩
    else if os_exists fs m.target_path = false then ⟨.noop, target_path⟩
    else if existing_target_file.isSome then
      ⟨.updatePointer m.target_path target_path, target_path⟩
    else if os_exists fs target_path = true then
      ⟨.updatePointer m.target_path target_path, target_path⟩
    else if basename m.target_path ≠ basename target_path then
      (if os_getsize fs source_path = 0 then
        ⟨.copyNewAndPointer source_path target_path m.target_path, target_path⟩
      else ⟨.moveFile m.target_path target_path, target_path⟩)
    else ⟨.noop, m.target_path⟩

/-- Claim C5: when the mapping's recorded target path differs from the
currently resolved target path, the old target file still exists, and
either the new location already holds a file or only the directory part
(not the filename) changed, the move-handling block either updates the
mapping's target-path pointer or keeps the existing path; it never copies,
moves, or modifies file bytes. -/
theorem handle_target_move_respects_layout (fs : FS)
    (target_folder source_path target_filename : String)
    (existing_target_file : Option String) (m : FileMapping)
    (hdiff : m.target_path
      ≠ resolved_target_path target_folder target_filename existing_target_file)
    (hold : os_exists fs m.target_path = true)
    (hcase : os_exists fs
        (resolved_target_path target_folder target_filename existing_target_file) = true ∨
      basename m.target_path
        = basename (resolved_target_path target_folder target_filename existing_target_file)) :
    (handle_target_move fs target_folder source_path target_filename
        existing_target_file (some m)).effect
      = .updatePointer m.target_path
          (resolved_target_path target_folder target_filename existing_target_file) ∨
    ((handle_target_move fs target_folder source_path target_filename
        existing_target_file (some m)).effect = .noop ∧
      (handle_target_move fs target_folder source_path target_filename
        existing_target_file (some m)).target_path = m.target_path) := by
  simp only [handle_target_move, hdiff, hold]
  rcases existing_target_file with _ | p
  · by_cases hex : os_exists fs
        (resolved_target_path target_folder target_filename none) = true
    · simp [hdiff, hold, hex]
    · have hb : basename m.target_path
          = basename (resolved_target_path target_folder target_filename none) := by
        rcases hcase with h | h
        · exact absurd h hex
        · exact h
      simp [hdiff, hold, hex, hb]
  · simp [hdiff, hold]

def fsMove : FS :=
  ⟨[("/s/p/README.md", ⟨10, some "v", 1⟩),
    ("/t/sub/p-README.md", ⟨20, some "v", 1⟩),
    ("/t/p-README.md", ⟨30, some "w", 1⟩)]⟩

/-- A mapping still pointing at the old nested location of the mirror. -/
def mapMoved : FileMapping :=
  ⟨"/s/p/README.md", "/t/sub/p-README.md", "p", "p-README.md", "v", "v", 10, 20, 9⟩

theorem handle_target_move_respects_layout_witness :
    mapMoved.target_path ≠ resolved_target_path "/t" "p-README.md" none ∧
    os_exists fsMove mapMoved.target_path = true ∧
    os_exists fsMove (resolved_target_path "/t" "p-README.md" none) = true ∧
    ((handle_target_move fsMove "/t" "/s/p/README.md" "p-README.md" none
        (some mapMoved)).effect
      = .updatePointer mapMoved.target_path (resolved_target_path "/t" "p-README.md" none) ∨
    ((handle_target_move fsMove "/t" "/s/p/README.md" "p-README.md" none
        (some mapMoved)).effect = .noop ∧
      (handle_target_move fsMove "/t" "/s/p/README.md" "p-README.md" none
        (some mapMoved)).target_path = mapMoved.target_path)) :=
  ⟨by decide, by decide, by decide,
    handle_target_move_respects_layout fsMove "/t" "/s/p/README.md" "p-README.md" none
      mapMoved (by decide) (by decide) (Or.inl (by decide))⟩

end ReadmeSync
namespace ReadmeSync

/-- One element of the list returned by `SyncEngine.get_conflicts`. -/
structure ConflictInfo where
  source_path : String
  target_path : String
  source_mtime : Int
  target_mtime : Int
  last_sync_time : Int
  source_newer : Bool
  target_newer : Bool
deriving DecidableEq

/-- The loop body of `SyncEngine.get_conflicts` (sync_engine.py lines
741-770) for one mapping: the entry appended to the list, when any. -/
def conflict_entry (digest : String → String) (fs : FS) (m : FileMapping) :
    Option ConflictInfo :=
  if os_exists fs m.source_path = false ∨ os_exists fs m.target_path = false then none
  else
    let source_hash := get_file_hash digest fs m.source_path
    let target_hash := get_file_hash digest fs m.target_path
    if source_hash = target_hash then none
    else
      let source_mtime := os_getmtime fs m.source_path
      let target_mtime := os_getmtime fs m.target_path
      let source_changed := changed_since_baseline (some m.source_hash) source_hash
      let target_changed := changed_since_baseline (some m.target_hash) target_hash
      if source_changed = true ∧ target_changed = true then
        some ⟨m.source_path, m.target_path, source_mtime, target_mtime,
          m.last_sync_time, decide (source_mtime > target_mtime),
          decide (target_mtime > source_mtime)⟩
      else none

/-- `SyncEngine.get_conflicts` (sync_engine.py lines 736-772). The function
reads no configuration, so the conflict policy cannot influence it. -/
def get_conflicts (digest : String → String) (fs : FS)
    (mappings : List FileMapping) : List ConflictInfo :=
  mappings.filterMap (conflict_entry digest fs)

/-- Claim C7: for every mapping whose two files exist, whose live hashes
differ from each other and from the stored baselines, get_conflicts lists
the pair annotated with target_newer = true and source_newer = false when
the target's mtime is greater; get_conflicts reads no conflict policy, so
the result is policy-independent. -/
theorem get_conflicts_lists_dual_modification (digest : String → String) (fs : FS)
    (mappings : List FileMapping) (m : FileMapping) (hm : m ∈ mappings)
    (hs : os_exists fs m.source_path = true) (ht : os_exists fs m.target_path = true)
    (hneq : get_file_hash digest fs m.source_path ≠ get_file_hash digest fs m.target_path)
    (hsc : changed_since_baseline (some m.source_hash)
      (get_file_hash digest fs m.source_path) = true)
    (htc : changed_since_baseline (some m.target_hash)
      (get_file_hash digest fs m.target_path) = true)
    (hnewer : os_getmtime fs m.target_path > os_getmtime fs m.source_path) :
    ∃ c ∈ get_conflicts digest fs mappings,
      c.source_path = m.source_path ∧ c.target_path = m.target_path ∧
      c.source_mtime = os_getmtime fs m.source_path ∧
      c.target_mtime = os_getmtime fs m.target_path ∧
      c.target_newer = true ∧ c.source_newer = false := by
  refine ⟨⟨m.source_path, m.target_path, os_getmtime fs m.source_path,
    os_getmtime fs m.target_path, m.last_sync_time,
    decide (os_getmtime fs m.source_path > os_getmtime fs m.target_path),
    decide (os_getmtime fs m.target_path > os_getmtime fs m.source_path)⟩, ?_, ?_⟩
  · rw [get_conflicts, List.mem_filterMap]
    refine ⟨m, hm, ?_⟩
    simp [conflict_entry, hs, ht, hneq, hsc, htc]
  · refine ⟨rfl, rfl, rfl, rfl, by simp [hnewer], by simp; omega⟩

def fsConflictPair : FS :=
  ⟨[("/s/p/README.md", ⟨100, some "h1", 2⟩), ("/t/p-README.md", ⟨110, some "h2", 2⟩)]⟩

/-- Baseline recorded before both sides diverged. -/
def mapBaselinePair : FileMapping :=
  ⟨"/s/p/README.md", "/t/p-README.md", "p", "p-README.md", "h0", "h0", 90, 90, 90⟩

theorem get_conflicts_lists_dual_modification_witness :
    (os_exists fsConflictPair "/s/p/README.md" = true ∧
      os_exists fsConflictPair "/t/p-README.md" = true ∧
      get_file_hash sampleDigest fsConflictPair "/s/p/README.md"
        ≠ get_file_hash sampleDigest fsConflictPair "/t/p-README.md" ∧
      os_getmtime fsConflictPair "/t/p-README.md"
        > os_getmtime fsConflictPair "/s/p/README.md") ∧
    (∃ c ∈ get_conflicts sampleDigest fsConflictPair [mapBaselinePair],
      c.source_path = mapBaselinePair.source_path ∧
      c.target_path = mapBaselinePair.target_path ∧
      c.source_mtime = os_getmtime fsConflictPair mapBaselinePair.source_path ∧
      c.target_mtime = os_getmtime fsConflictPair mapBaselinePair.target_path ∧
      c.target_newer = true ∧ c.source_newer = false) :=
  ⟨⟨by decide, by decide, by decide, by decide⟩,
    get_conflicts_lists_dual_modification sampleDigest fsConflictPair [mapBaselinePair]
      mapBaselinePair (by decide) (by decide) (by decide) (by decide) (by decide)
      (by decide) (by decide)⟩

end ReadmeSync
namespace ReadmeSync

/-- The removal test of `DatabaseManager.cleanup_orphaned_mappings`
(database.py lines 247-265); it depends on the mapping's source path only:
remove when the source file is gone, or when no enabled source folder is a
plain string prefix of it (`source_path.startswith(source_folder)`). -/
def orphan_source_path (fs : FS) (enabled_sources : List String) (p : String) : Bool :=
  if os_exists fs p = false then true
  else !(enabled_sources.any (fun folder => strStartsWith p folder))

/-- `DatabaseManager.remove_mapping`: SQL DELETE by source path. -/
def remove_mapping (db : List FileMapping) (source_path : String) : List FileMapping :=
  db.filter (fun m => decide (m.source_path ≠ source_path))

/-- The loop of `cleanup_orphaned_mappings` over the snapshot of all
mappings, deleting from the live table and counting. -/
def cleanup_go (fs : FS) (enabled_sources : List String) :
    List FileMapping → List FileMapping → Nat → Nat × List FileMapping
  | [], db, n => (n, db)
  | m :: rest, db, n =>
    if orphan_source_path fs enabled_sources m.source_path = true then
      cleanup_go fs enabled_sources rest (remove_mapping db m.source_path) (n + 1)
    else cleanup_go fs enabled_sources rest db n

/-- `DatabaseManager.cleanup_orphaned_mappings` (database.py lines 238-271):
returns the number of removed mappings and the surviving table. -/
def cleanup_orphaned_mappings (fs : FS) (enabled_sources : List String)
    (db : List FileMapping) : Nat × List FileMapping :=
  cleanup_go fs enabled_sources db db 0

theorem orphan_source_path_false_iff (fs : FS) (en : List String) (p : String) :
    orphan_source_path fs en p = false ↔
      (os_exists fs p = true ∧ ∃ folder ∈ en, strStartsWith p folder = true) := by
  rw [orphan_source_path]
  by_cases hex : os_exists fs p = false
  · simp [hex]
  · have hex' : os_exists fs p = true := by
      revert hex; cases os_exists fs p <;> simp
    simp [hex', List.any_eq_true]

theorem cleanup_go_spec (fs : FS) (en : List String) (l : List FileMapping) :
    ∀ (db : List FileMapping) (n : Nat),
    cleanup_go fs en l db n
      = (n + (l.filter (fun m => orphan_source_path fs en m.source_path)).length,
         db.filter (fun m =>
           !(orphan_source_path fs en m.source_path &&
             l.any (fun o => decide (o.source_path = m.source_path))))) := by
  induction l with
  | nil =>
    intro db n
    simp [cleanup_go]
  | cons o rest ih =>
    intro db n
    by_cases ho : orphan_source_path fs en o.source_path = true
    · rw [cleanup_go, if_pos ho, ih]
      simp only [Prod.mk.injEq]
      constructor
      · simp [ho]
        omega
      · rw [remove_mapping, List.filter_filter]
        refine List.filter_congr ?_
        intro m _
        by_cases he : o.source_path = m.source_path
        · have hom : orphan_source_path fs en m.source_path = true := he ▸ ho
          simp [he, hom]
        · have he' : ¬(m.source_path = o.source_path) := fun h => he h.symm
          simp [List.any_cons, he, he', Bool.and_comm]
    · rw [cleanup_go, if_neg ho, ih]
      have ho' : orphan_source_path fs en o.source_path = false := by
        revert ho; cases orphan_source_path fs en o.source_path <;> simp
      simp only [Prod.mk.injEq]
      constructor
      · simp [ho']
      · refine congrArg (fun q => List.filter q db) (funext fun m => ?_)
        by_cases he : o.source_path = m.source_path
        · have hom : orphan_source_path fs en m.source_path = false := he ▸ ho'
          simp [List.any_cons, he, hom]
        · simp [List.any_cons, he]

/-- Claim C8, amended: the orphan purge removes exactly the mappings whose
source_path no longer exists on disk or is not matched by the plain
string-prefix test source_path.startswith(folder) against any enabled
source folder (a root that is a string prefix but not a path ancestor also
counts as in scope), returns the number removed, and retains all others. -/
theorem cleanup_orphaned_mappings_spec (fs : FS) (enabled_sources : List String)
    (db : List FileMapping) :
    (cleanup_orphaned_mappings fs enabled_sources db).1
      = (db.filter (fun m => orphan_source_path fs enabled_sources m.source_path)).length ∧
    ∀ m, m ∈ (cleanup_orphaned_mappings fs enabled_sources db).2 ↔
      (m ∈ db ∧ os_exists fs m.source_path = true ∧
        ∃ folder ∈ enabled_sources, strStartsWith m.source_path folder = true) := by
  constructor
  · rw [cleanup_orphaned_mappings, cleanup_go_spec]
    simp
  · intro m
    rw [cleanup_orphaned_mappings, cleanup_go_spec]
    simp only [List.mem_filter]
    constructor
    · rintro ⟨hdb, hc⟩
      have hany : db.any (fun o => decide (o.source_path = m.source_path)) = true :=
        List.any_eq_true.mpr ⟨m, hdb, by simp⟩
      rw [hany, Bool.and_true] at hc
      have horv : orphan_source_path fs enabled_sources m.source_path = false := by
        revert hc; cases orphan_source_path fs enabled_sources m.source_path <;> simp
      exact ⟨hdb, (orphan_source_path_false_iff fs enabled_sources m.source_path).mp horv⟩
    · rintro ⟨hdb, hrest⟩
      have horv : orphan_source_path fs enabled_sources m.source_path = false :=
        (orphan_source_path_false_iff fs enabled_sources m.source_path).mpr hrest
      exact ⟨hdb, by simp [horv]⟩

end ReadmeSync
namespace ReadmeSync

/-- The specification's notion for orphan purging, following its words: a
path is rooted under a source root when it is the root itself or lies
inside the root directory. Stated as a second definition so it can be
compared with the plain string-prefix test the code performs. -/
def spec_rooted_under (p root : String) : Bool :=
  decide (p = root) || strStartsWith p (root ++ "/")

def fsScope : FS := ⟨[("/a/bc/README.md", ⟨10, some "x", 1⟩)]⟩

/-- A mapping whose source lives in `/a/bc`, a sibling of the enabled root
`/a/b` that merely shares it as a string prefix. -/
def mapScope : FileMapping :=
  ⟨"/a/bc/README.md", "/t/bc-README.md", "bc", "bc-README.md", "x", "x", 10, 10, 9⟩

/-- Claim C8, counterexample: a mapping whose source exists but is not
rooted under the only enabled root /a/b (it lives in the sibling /a/bc) is
retained, not removed, because the code tests a plain string prefix. -/
theorem cleanup_orphaned_mappings_counterexample :
    os_exists fsScope "/a/bc/README.md" = true ∧
    spec_rooted_under "/a/bc/README.md" "/a/b" = false ∧
    cleanup_orphaned_mappings fsScope ["/a/b"] [mapScope] = (0, [mapScope]) :=
  ⟨by decide, by decide, by decide⟩

def fsClean : FS := ⟨[("/a/p/README.md", ⟨10, some "x", 1⟩)]⟩

def mapKeep : FileMapping :=
  ⟨"/a/p/README.md", "/t/p-README.md", "p", "p-README.md", "x", "x", 10, 10, 9⟩

def mapGone : FileMapping :=
  ⟨"/gone/README.md", "/t/g-README.md", "g", "g-README.md", "y", "y", 5, 5, 4⟩

theorem cleanup_orphaned_mappings_spec_witness :
    (cleanup_orphaned_mappings fsClean ["/a"] [mapKeep, mapGone]).1 = 1 ∧
    mapKeep ∈ (cleanup_orphaned_mappings fsClean ["/a"] [mapKeep, mapGone]).2 ∧
    mapGone ∉ (cleanup_orphaned_mappings fsClean ["/a"] [mapKeep, mapGone]).2 :=
  ⟨by rw [(cleanup_orphaned_mappings_spec fsClean ["/a"] [mapKeep, mapGone]).1]; decide,
    ((cleanup_orphaned_mappings_spec fsClean ["/a"] [mapKeep, mapGone]).2 mapKeep).mpr
      ⟨by decide, by decide, "/a", by decide, by decide⟩,
    fun hmem => absurd
      (((cleanup_orphaned_mappings_spec fsClean ["/a"] [mapKeep, mapGone]).2 mapGone).mp
        hmem).2.1 (by decide)⟩

end ReadmeSync
namespace ReadmeSync

/-- Drop a known prefix from a path string. -/
def stripPrefixStr (p pre : String) : String := String.mk (p.data.drop pre.data.length)

/-- Order-preserving de-duplication standing in for Python's
`list(set(unlinked_files + files_with_missing_source))`; the set order is
unspecified in Python, so the embedding fixes concatenation order. -/
def dedupAux : List String → List String → List String
  | [], acc => acc.reverse
  | x :: xs, acc => if x ∈ acc then dedupAux xs acc else dedupAux xs (x :: acc)

def dedup (l : List String) : List String := dedupAux l []

/-- Whether the recursive `scan_directory` walk of
`DatabaseManager.find_unlinked_files` (database.py lines 300-323) reaches
path `p`: a `.md` file strictly inside the target folder whose intermediate
directories never carry the unlinked subfolder's name (such directories are
skipped at every depth). -/
def scan_collects (target_folder unlinked_name p : String) : Bool :=
  strStartsWith p (target_folder ++ "/") &&
  (let segs := splitSlash (stripPrefixStr p (target_folder ++ "/"))
   strEndsWith (segs.getLastD "") ".md" &&
   segs.dropLast.all (fun d => decide (d ≠ unlinked_name)))

/-- The target paths the store tracks (database.py lines 285-290). -/
def tracked_targets (mappings : List FileMapping) : List String :=
  mappings.filterMap (fun m => if m.target_path ≠ "" then some m.target_path else none)

/-- Mapped target files whose source no longer exists
(database.py lines 292-295). -/
def files_with_missing_source (fs : FS) (mappings : List FileMapping) : List String :=
  mappings.filterMap (fun m =>
    if m.target_path ≠ "" ∧ m.source_path ≠ "" ∧ os_exists fs m.source_path = false ∧
        os_exists fs m.target_path = true
    then some m.target_path else none)

/-- `DatabaseManager.find_unlinked_files` (database.py lines 273-328). -/
def find_unlinked_files (fs : FS) (mappings : List FileMapping)
    (target_folder unlinked_name : String) : List String :=
  let tracked := tracked_targets mappings
  let scanned := (fs.files.map (·.1)).filter
    (fun p => scan_collects target_folder unlinked_name p && decide (p ∉ tracked))
  dedup (scanned ++ files_with_missing_source fs mappings)

/-- `name_{timestamp}{ext}`, the collision fallback of
`move_unlinked_files` (database.py lines 358-363). -/
def ts_suffix_name (file_name : String) (ts : Nat) : String :=
  (splitext file_name).1 ++ "_" ++ toString ts ++ (splitext file_name).2

/-- Destination chosen for one unlinked file, relative to the current
filesystem state: the plain name in the unlinked folder, or the
timestamp-suffixed name when the plain destination already exists. -/
def move_dest (fs : FS) (unlinked_dir : String) (ts : Nat) (p : String) : String :=
  if os_exists fs (joinPath unlinked_dir (basename p)) = true then
    joinPath unlinked_dir (ts_suffix_name (basename p) ts)
  else joinPath unlinked_dir (basename p)

/-- One iteration of the move loop: `shutil.move(file_path, new_path)` with
rename semantics (the destination, when present, is overwritten), counting
successes; a vanished source raises and is skipped by the per-file
`except`. `time.time()` is frozen to `ts` for the pass. -/
def move_unlinked_step (unlinked_dir : String) (ts : Nat) (acc : FS × Nat)
    (p : String) : FS × Nat :=
  match lookupFile acc.1 p with
  | none => acc
  | some d =>
    ⟨⟨(move_dest acc.1 unlinked_dir ts p, d) ::
        acc.1.files.filter (fun e =>
          decide (e.1 ≠ p) && decide (e.1 ≠ move_dest acc.1 unlinked_dir ts p))⟩,
      acc.2 + 1⟩

/-- `DatabaseManager.move_unlinked_files` (database.py lines 339-375):
returns the filesystem after the pass and the number of files moved. -/
def move_unlinked_files (fs : FS) (mappings : List FileMapping)
    (target_folder unlinked_name : String) (ts : Nat) : FS × Nat :=
  let unlinked := find_unlinked_files fs mappings target_folder unlinked_name
  if unlinked = [] then (fs, 0)
  else unlinked.foldl (move_unlinked_step (joinPath target_folder unlinked_name) ts) (fs, 0)

def fsCollide : FS :=
  ⟨[("/t/a/x.md", ⟨1, some "A", 1⟩), ("/t/b/x.md", ⟨2, some "B", 1⟩),
    ("/t/unlinked/x.md", ⟨3, some "C", 1⟩)]⟩

/-- Claim C6, counterexample: two unlinked files named x.md whose plain
destination collides with a pre-existing quarantine file are both given the
same timestamp suffix in one pass; the second move overwrites the first, so
the content "A" of the first unlinked file is deleted outright. -/
theorem move_unlinked_files_counterexample :
    "/t/a/x.md" ∈ find_unlinked_files fsCollide [] "/t" "unlinked" ∧
    readBytes fsCollide "/t/a/x.md" = some "A" ∧
    ((move_unlinked_files fsCollide [] "/t" "unlinked" 99).1.files.all
      (fun e => decide (e.2.bytes ≠ some "A"))) = true :=
  ⟨by decide, by decide, by decide⟩

end ReadmeSync
namespace ReadmeSync

theorem isPrefixOf_append (l t : List Char) : List.isPrefixOf l (l ++ t) = true := by
  induction l with
  | nil => simp [List.isPrefixOf]
  | cons c cs ih => simp [List.isPrefixOf, ih]

theorem joinPath_startsWith (ud x : String) :
    strStartsWith (joinPath ud x) (ud ++ "/") = true := by
  rw [strStartsWith, joinPath, String.data_append, String.data_append,
    String.data_append]
  exact isPrefixOf_append _ _

theorem move_dest_under (fs : FS) (ud : String) (ts : Nat) (p : String) :
    strStartsWith (move_dest fs ud ts p) (ud ++ "/") = true := by
  rw [move_dest]
  split_ifs <;> exact joinPath_startsWith _ _

theorem find_filter_ne (l : List (String × FileData)) (p dst x : String)
    (hxd : x ≠ dst) :
    (l.filter (fun e => decide (e.1 ≠ p) && decide (e.1 ≠ dst))).find?
        (fun e => decide (e.1 = x))
      = if x = p then none else l.find? (fun e => decide (e.1 = x)) := by
  induction l with
  | nil => simp
  | cons a l ih =>
    by_cases hap : a.1 = p
    · rw [List.filter_cons_of_neg (by simp [hap]), ih]
      by_cases hx : x = p
      · simp [hx]
      · have hax : ¬((a.1 = x) = True) := by simp; intro h; exact hx (by rw [← h, hap])
        rw [if_neg hx, if_neg hx, List.find?_cons_of_neg _ (by simpa using hax)]
    · by_cases had : a.1 = dst
      · rw [List.filter_cons_of_neg (by simp [had]), ih]
        have hax : ¬(a.1 = x) := fun h => hxd (by rw [← h, had])
        rw [List.find?_cons_of_neg _ (by simp [hax])]
      · rw [List.filter_cons_of_pos (by simp [hap, had])]
        by_cases hax : a.1 = x
        · have hxp : ¬(x = p) := fun h => hap (by rw [hax, h])
          rw [List.find?_cons_of_pos _ (by simp [hax]), if_neg hxp,
            List.find?_cons_of_pos _ (by simp [hax])]
        · rw [List.find?_cons_of_neg _ (by simp [hax]), ih,
            List.find?_cons_of_neg _ (by simp [hax])]

theorem lookup_after_move (fs : FS) (p dst : String) (d : FileData) (x : String) :
    lookupFile ⟨(dst, d) ::
        fs.files.filter (fun e => decide (e.1 ≠ p) && decide (e.1 ≠ dst))⟩ x
      = if x = dst then some d else if x = p then none else lookupFile fs x := by
  by_cases hxd : x = dst
  · simp only [lookupFile]
    rw [List.find?_cons_of_pos _ (by simp [hxd]), if_pos hxd]
    rfl
  · have hdx : ¬(dst = x) := fun h => hxd h.symm
    simp only [lookupFile]
    rw [List.find?_cons_of_neg _ (by simp [hdx]), if_neg hxd,
      find_filter_ne fs.files p dst x hxd]
    by_cases hxp : x = p
    · simp [hxp]
    · rw [if_neg hxp, if_neg hxp]

end ReadmeSync
namespace ReadmeSync

theorem move_unlinked_step_eq (ud : String) (ts : Nat) (fs0 : FS) (n0 : Nat)
    (p : String) (d : FileData) (hd : lookupFile fs0 p = some d) :
    move_unlinked_step ud ts (fs0, n0) p
      = (⟨(move_dest fs0 ud ts p, d) :: fs0.files.filter (fun e =>
          decide (e.1 ≠ p) && decide (e.1 ≠ move_dest fs0 ud ts p))⟩, n0 + 1) := by
  simp only [move_unlinked_step, hd]

theorem move_fold_spec (ud : String) (ts : Nat) (L : List String) :
    ∀ (fs0 : FS) (n0 : Nat),
    (∀ p ∈ L, os_exists fs0 p = true) →
    (∀ p ∈ L, strStartsWith p (ud ++ "/") = false) →
    (∀ p ∈ L, os_exists fs0 (move_dest fs0 ud ts p) = false) →
    (L.map (fun p => move_dest fs0 ud ts p)).Pairwise (fun a b => a ≠ b) →
    ((L.foldl (move_unlinked_step ud ts) (fs0, n0)).2 = n0 + L.length ∧
     (∀ p ∈ L, lookupFile (L.foldl (move_unlinked_step ud ts) (fs0, n0)).1
         (move_dest fs0 ud ts p) = lookupFile fs0 p) ∧
     (∀ q, q ∉ L → (∀ p ∈ L, q ≠ move_dest fs0 ud ts p) →
       lookupFile (L.foldl (move_unlinked_step ud ts) (fs0, n0)).1 q
         = lookupFile fs0 q)) := by
  induction L with
  | nil =>
    intro fs0 n0 _ _ _ _
    exact ⟨rfl, by simp, fun q _ _ => rfl⟩
  | cons p rest ih =>
    intro fs0 n0 hex hout hfresh hdist
    obtain ⟨d, hd⟩ : ∃ d, lookupFile fs0 p = some d := by
      have h := hex p (List.mem_cons_self p rest)
      rw [os_exists] at h
      exact Option.isSome_iff_exists.mp h
    have hpair := List.pairwise_cons.mp hdist
    have hrest_ne : ∀ q ∈ rest, move_dest fs0 ud ts p ≠ move_dest fs0 ud ts q :=
      fun q hq => hpair.1 _ (List.mem_map.mpr ⟨q, hq, rfl⟩)
    have hpnotin : p ∉ rest := fun hp => (hrest_ne p hp) rfl
    set dst := move_dest fs0 ud ts p with hdst
    set fs1 : FS := ⟨(dst, d) :: fs0.files.filter (fun e =>
      decide (e.1 ≠ p) && decide (e.1 ≠ dst))⟩ with hfs1r
    have hstep : move_unlinked_step ud ts (fs0, n0) p = (fs1, n0 + 1) := by
      rw [move_unlinked_step_eq ud ts fs0 n0 p d hd]
    have hlook : ∀ x, lookupFile fs1 x
        = if x = dst then some d else if x = p then none else lookupFile fs0 x := by
      intro x
      rw [hfs1r]
      exact lookup_after_move fs0 p dst d x
    have hud_dst : strStartsWith dst (ud ++ "/") = true := move_dest_under fs0 ud ts p
    have hne_dst : ∀ y, strStartsWith y (ud ++ "/") = false → y ≠ dst := by
      intro y hy h
      rw [h, hud_dst] at hy
      exact absurd hy (by decide)
    have hunder_ne_p : ∀ y, strStartsWith y (ud ++ "/") = true → y ≠ p := by
      intro y hy h
      rw [h, hout p (List.mem_cons_self p rest)] at hy
      exact absurd hy (by decide)
    have hq_ne_p : ∀ q ∈ rest, q ≠ p := fun q hq h => hpnotin (h ▸ hq)
    have hlook_rest : ∀ q ∈ rest, lookupFile fs1 q = lookupFile fs0 q := by
      intro q hq
      rw [hlook q, if_neg (hne_dst q (hout q (List.mem_cons_of_mem _ hq))),
        if_neg (hq_ne_p q hq)]
    have hex1 : ∀ q ∈ rest, os_exists fs1 q = true := by
      intro q hq
      rw [os_exists, hlook_rest q hq]
      have h := hex q (List.mem_cons_of_mem _ hq)
      rw [os_exists] at h
      exact h
    have hplain_ne_p : ∀ q : String, joinPath ud (basename q) ≠ p :=
      fun q => hunder_ne_p _ (joinPath_startsWith ud (basename q))
    have hplain : ∀ q ∈ rest, os_exists fs1 (joinPath ud (basename q))
        = os_exists fs0 (joinPath ud (basename q)) := by
      intro q hq
      by_cases hpl : os_exists fs0 (joinPath ud (basename q)) = true
      · rw [hpl, os_exists, hlook]
        by_cases h1 : joinPath ud (basename q) = dst
        · rw [if_pos h1]
          rfl
        · rw [if_neg h1, if_neg (hplain_ne_p q)]
          rw [os_exists] at hpl
          exact hpl
      · have hdq : move_dest fs0 ud ts q = joinPath ud (basename q) := by
          rw [move_dest, if_neg hpl]
        have h1 : joinPath ud (basename q) ≠ dst := by
          rw [← hdq]
          exact fun h => (hrest_ne q hq) h.symm
        have hpl' : os_exists fs0 (joinPath ud (basename q)) = false := by
          revert hpl
          cases os_exists fs0 (joinPath ud (basename q)) <;> simp
        rw [hpl', os_exists, hlook, if_neg h1, if_neg (hplain_ne_p q)]
        rw [os_exists] at hpl'
        exact hpl'
    have hstable : ∀ q ∈ rest, move_dest fs1 ud ts q = move_dest fs0 ud ts q := by
      intro q hq
      rw [move_dest, move_dest, hplain q hq]
    have hfresh1 : ∀ q ∈ rest, os_exists fs1 (move_dest fs1 ud ts q) = false := by
      intro q hq
      rw [hstable q hq]
      have hdq_ne_dst : move_dest fs0 ud ts q ≠ dst := fun h => (hrest_ne q hq) h.symm
      have hdq_ne_p : move_dest fs0 ud ts q ≠ p :=
        hunder_ne_p _ (move_dest_under fs0 ud ts q)
      rw [os_exists, hlook, if_neg hdq_ne_dst, if_neg hdq_ne_p]
      have h := hfresh q (List.mem_cons_of_mem _ hq)
      rw [os_exists] at h
      exact h
    have hdist1 : (rest.map (fun q => move_dest fs1 ud ts q)).Pairwise
        (fun a b => a ≠ b) := by
      rw [List.map_congr_left hstable]
      exact hpair.2
    have IH := ih fs1 (n0 + 1) hex1
      (fun q hq => hout q (List.mem_cons_of_mem _ hq)) hfresh1 hdist1
    refine ⟨?_, ?_, ?_⟩
    · rw [List.foldl_cons, hstep, IH.1]
      simp
      omega
    · intro x hx
      rcases List.mem_cons.mp hx with rfl | hxr
      · have hdst_notin_rest : dst ∉ rest :=
          fun h => (hne_dst dst (hout dst (List.mem_cons_of_mem _ h))) rfl
        have hdst_ne_dests : ∀ r ∈ rest, dst ≠ move_dest fs1 ud ts r := by
          intro r hr
          rw [hstable r hr]
          exact hrest_ne r hr
        rw [List.foldl_cons, hstep, IH.2.2 dst hdst_notin_rest hdst_ne_dests,
          hlook dst, if_pos rfl, hd]
      · have h2 := IH.2.1 x hxr
        rw [hstable x hxr] at h2
        rw [List.foldl_cons, hstep, h2, hlook_rest x hxr]
    · intro q hqni hqd
      have hq_ne_p' : q ≠ p := fun h => hqni (h ▸ List.mem_cons_self p rest)
      have hq_ne_dst : q ≠ dst := hqd p (List.mem_cons_self p rest)
      have hqni_rest : q ∉ rest := fun h => hqni (List.mem_cons_of_mem _ h)
      have hqd_rest : ∀ r ∈ rest, q ≠ move_dest fs1 ud ts r := by
        intro r hr
        rw [hstable r hr]
        exact hqd r (List.mem_cons_of_mem _ hr)
      rw [List.foldl_cons, hstep, IH.2.2 q hqni_rest hqd_rest, hlook q,
        if_neg hq_ne_dst, if_neg hq_ne_p']

end ReadmeSync
namespace ReadmeSync

/-- Claim C6, amended: every file selected by find_unlinked_files (the .md
files under the target root outside the unlinked subfolder with no mapping,
plus mapped targets whose source vanished) is relocated into the unlinked
subfolder, with the timestamp-suffixed name exactly when the plain
destination already exists; the pass returns the number moved and deletes
no content, provided the selected files lie outside the quarantine folder
and their destinations are fresh and pairwise distinct (the counterexample
shows content is lost when two destinations collide). -/
theorem move_unlinked_files_quarantine (fs : FS) (mappings : List FileMapping)
    (target_folder unlinked_name : String) (ts : Nat)
    (hex : ∀ p ∈ find_unlinked_files fs mappings target_folder unlinked_name,
      os_exists fs p = true)
    (hout : ∀ p ∈ find_unlinked_files fs mappings target_folder unlinked_name,
      strStartsWith p (joinPath target_folder unlinked_name ++ "/") = false)
    (hfresh : ∀ p ∈ find_unlinked_files fs mappings target_folder unlinked_name,
      os_exists fs (move_dest fs (joinPath target_folder unlinked_name) ts p) = false)
    (hdist : ((find_unlinked_files fs mappings target_folder unlinked_name).map
      (fun p => move_dest fs (joinPath target_folder unlinked_name) ts p)).Pairwise
        (fun a b => a ≠ b)) :
    (move_unlinked_files fs mappings target_folder unlinked_name ts).2
      = (find_unlinked_files fs mappings target_folder unlinked_name).length ∧
    (∀ p ∈ find_unlinked_files fs mappings target_folder unlinked_name,
      lookupFile (move_unlinked_files fs mappings target_folder unlinked_name ts).1
          (move_dest fs (joinPath target_folder unlinked_name) ts p)
        = lookupFile fs p ∧
      strStartsWith (move_dest fs (joinPath target_folder unlinked_name) ts p)
        (joinPath target_folder unlinked_name ++ "/") = true) ∧
    (∀ q, os_exists fs q = true →
      ∃ r, lookupFile (move_unlinked_files fs mappings target_folder unlinked_name ts).1 r
        = lookupFile fs q) := by
  by_cases hL : find_unlinked_files fs mappings target_folder unlinked_name = []
  · refine ⟨?_, ?_, ?_⟩
    · simp only [move_unlinked_files]
      rw [if_pos hL, hL]
      rfl
    · intro p hp
      rw [hL] at hp
      exact absurd hp (List.not_mem_nil p)
    · intro q _
      refine ⟨q, ?_⟩
      simp only [move_unlinked_files]
      rw [if_pos hL]
  · have S := move_fold_spec (joinPath target_folder unlinked_name) ts
      (find_unlinked_files fs mappings target_folder unlinked_name) fs 0
      hex hout hfresh hdist
    refine ⟨?_, ?_, ?_⟩
    · simp only [move_unlinked_files]
      rw [if_neg hL, S.1]
      exact Nat.zero_add _
    · intro p hp
      constructor
      · simp only [move_unlinked_files]
        rw [if_neg hL]
        exact S.2.1 p hp
      · exact move_dest_under fs (joinPath target_folder unlinked_name) ts p
    · intro q hq
      by_cases hqm : q ∈ find_unlinked_files fs mappings target_folder unlinked_name
      · refine ⟨move_dest fs (joinPath target_folder unlinked_name) ts q, ?_⟩
        simp only [move_unlinked_files]
        rw [if_neg hL]
        exact S.2.1 q hqm
      · refine ⟨q, ?_⟩
        simp only [move_unlinked_files]
        rw [if_neg hL]
        refine S.2.2 q hqm ?_
        intro p hp h
        have hf := hfresh p hp
        rw [← h, hq] at hf
        exact absurd hf (by decide)

def fsQuarantine : FS := ⟨[("/t/a/x.md", ⟨1, some "A", 1⟩)]⟩

theorem move_unlinked_files_quarantine_witness :
    (∀ p ∈ find_unlinked_files fsQuarantine [] "/t" "unlinked",
      os_exists fsQuarantine p = true) ∧
    (∀ p ∈ find_unlinked_files fsQuarantine [] "/t" "unlinked",
      strStartsWith p (joinPath "/t" "unlinked" ++ "/") = false) ∧
    (∀ p ∈ find_unlinked_files fsQuarantine [] "/t" "unlinked",
      os_exists fsQuarantine (move_dest fsQuarantine (joinPath "/t" "unlinked") 7 p)
        = false) ∧
    ((find_unlinked_files fsQuarantine [] "/t" "unlinked").map
      (fun p => move_dest fsQuarantine (joinPath "/t" "unlinked") 7 p)).Pairwise
        (fun a b => a ≠ b) ∧
    ((move_unlinked_files fsQuarantine [] "/t" "unlinked" 7).2
      = (find_unlinked_files fsQuarantine [] "/t" "unlinked").length ∧
    (∀ p ∈ find_unlinked_files fsQuarantine [] "/t" "unlinked",
      lookupFile (move_unlinked_files fsQuarantine [] "/t" "unlinked" 7).1
          (move_dest fsQuarantine (joinPath "/t" "unlinked") 7 p)
        = lookupFile fsQuarantine p ∧
      strStartsWith (move_dest fsQuarantine (joinPath "/t" "unlinked") 7 p)
        (joinPath "/t" "unlinked" ++ "/") = true) ∧
    (∀ q, os_exists fsQuarantine q = true →
      ∃ r, lookupFile (move_unlinked_files fsQuarantine [] "/t" "unlinked" 7).1 r
        = lookupFile fsQuarantine q)) :=
  ⟨by decide, by decide, by decide, by decide,
    move_unlinked_files_quarantine fsQuarantine [] "/t" "unlinked" 7
      (by decide) (by decide) (by decide) (by decide)⟩

end ReadmeSync
